import Mathlib

/-!
Shallow embedding of the match/level/scoring state machine of
`train_color_matcher.py` (class `Game` / `ModernGame`): the data model
(`GameState`), the operations (`attemptMatch` via `match_train` /
`on_correct_match` / `on_wrong_match`, `handle_level_completion`,
`reset_game`, `toggle_zen_mode`, `cycle_difficulty`, `cycle_mode`, the
menu / game-over click handlers), the static level catalog
(`LEVEL_CONFIGS`), and a small-step reachability relation over them.
Python `int` fields that can be driven negative only by a bug are
embedded as `Int` (`mistakes`, `additionalMistakes`); counters that the
code only increments or zeroes are embedded as `Nat`.  Randomness
(`random.choice` in `initialize_trains`) is embedded as an explicit
oracle `pick : Nat → Nat` selecting indices into the available-color
pool.
-/

/-- Train colors used by the level catalog (RED, BLUE, GREEN, YELLOW,
PURPLE, ORANGE, CYAN in the source). -/
inductive Color where
  | red | blue | green | yellow | purple | orange | cyan
  deriving DecidableEq, Repr

/-- Level modifiers (`"express_signals"`, `"dense_fog"` strings in the
source). -/
inductive Modifier where
  | expressSignals | denseFog
  deriving DecidableEq, Repr

/-- Game mode (`self.game_mode ∈ {'campaign', 'endless'}`). -/
inductive Mode where
  | campaign | endless
  deriving DecidableEq, Repr

/-- Top-level UI state (`MENU`, `PLAYING`, `GAME_OVER` constants). -/
inductive GState where
  | menu | playing | gameOver
  deriving DecidableEq, Repr

/-- `self.game_over_reason ∈ {None, 'mistakes', 'victory', 'quit'}`. -/
inductive Reason where
  | mistakes | victory | quit
  deriving DecidableEq, Repr

/-- Outcome of one match attempt (`match_train`): a correct match, a
wrong match, the benign no-trains-remaining no-op, or ignored because
the state is not PLAYING (the `handle_keyboard_input` guard). -/
inductive MatchOutcome where
  | correct | wrong | noTrainsRemaining | ignored
  deriving DecidableEq, Repr

/-- One entry of `LEVEL_CONFIGS`: the fields the core logic reads
(colors, max_trains, mistakes_allowed, modifiers; speed/spacing are
pacing cosmetics not consumed by the claims). -/
structure LevelConfig where
  colors : List Color
  maxTrains : Nat
  mistakesAllowed : Nat
  modifiers : List Modifier
  deriving DecidableEq, Repr

open Color Modifier in
/-- The static level catalog `LEVEL_CONFIGS` of the source (six levels:
Rookie, Sunset, Twilight, Aurora, Blizzard, Mirage). -/
def LEVEL_CONFIGS : List LevelConfig :=
  [ { colors := [red, blue, green], maxTrains := 8,
      mistakesAllowed := 3, modifiers := [] },
    { colors := [red, blue, green, yellow], maxTrains := 10,
      mistakesAllowed := 3, modifiers := [] },
    { colors := [red, blue, green, yellow, purple], maxTrains := 12,
      mistakesAllowed := 2, modifiers := [expressSignals] },
    { colors := [red, blue, green, yellow, purple, orange, cyan], maxTrains := 14,
      mistakesAllowed := 2, modifiers := [expressSignals] },
    { colors := [red, blue, green, yellow, purple, orange, cyan], maxTrains := 15,
      mistakesAllowed := 2, modifiers := [denseFog] },
    { colors := [red, blue, green, yellow, purple, orange, cyan], maxTrains := 16,
      mistakesAllowed := 1, modifiers := [expressSignals, denseFog] } ]

/-- Fallback config for out-of-range indexing (unreachable under the
level-index invariant; Python would raise IndexError instead). -/
def defaultConfig : LevelConfig :=
  { colors := [Color.red], maxTrains := 0, mistakesAllowed := 3, modifiers := [] }

/-- The mutable session state of class `Game`: exactly the fields the
core match/level/scoring logic reads and writes. -/
structure GameState where
  mode : Mode
  gstate : GState
  gameOverReason : Option Reason
  score : Nat
  mistakes : Int
  comboCount : Nat
  currentIndex : Nat
  levelIndex : Nat
  endlessStage : Nat
  highScore : Nat
  endlessHighScore : Nat
  zenMode : Bool
  difficultyIdx : Nat
  additionalMistakes : Int
  baseLevelMistakes : Nat
  maxMistakes : Nat
  maxTrains : Nat
  availableColors : List Color
  activeModifiers : List Modifier
  trackQueue : List Color
  deriving DecidableEq, Repr

/-- `list(dict.fromkeys(xs))` of `_reset_modifier_runtime`: dedup
keeping the first occurrence of each element. -/
def dedupFirst : List Modifier → List Modifier
  | [] => []
  | m :: rest => m :: dedupFirst (rest.filter (fun x => x ≠ m))
termination_by l => l.length
decreasing_by
  simp only [List.length_cons]
  exact Nat.lt_succ_of_le (List.length_filter_le _ _)

/-- `Game.update_mistake_limits`: clamp the base allowance at 1, store
it, and recompute `max_mistakes` (999 under zen mode, else the base
plus the difficulty offset, floored at 1). -/
def updateMistakeLimits (s : GameState) (baseValue : Nat) : GameState :=
  let b := max 1 baseValue
  { s with baseLevelMistakes := b,
           maxMistakes :=
             if s.zenMode then 999
             else (max 1 ((b : Int) + s.additionalMistakes)).toNat }

/-- The stage-gated modifier unlocks of `apply_level_rules` (endless
mode): append `"express_signals"` at stage ≥ 2 and `"dense_fog"` at
stage ≥ 4, each only when not already present. -/
def unlockMods (l : List Modifier) (st : Nat) : List Modifier :=
  let m1 := if 2 ≤ st ∧ Modifier.expressSignals ∉ l
            then l ++ [Modifier.expressSignals] else l
  if 4 ≤ st ∧ Modifier.denseFog ∉ m1 then m1 ++ [Modifier.denseFog] else m1

/-- `Game.apply_level_rules`: recompute the level-derived fields from
`LEVEL_CONFIGS` (campaign: indexed by `level_index`; endless: base
config indexed by `min(endless_stage, len-1)` with stage-scaled
max-train count capped at 18, a stage-scaled mistake penalty, and
stage-gated modifier unlocks), then dedup the modifier list
(`_reset_modifier_runtime`). -/
def applyLevelRules (s : GameState) : GameState :=
  match s.mode with
  | Mode.endless =>
    let baseIndex := min s.endlessStage (LEVEL_CONFIGS.length - 1)
    let base := LEVEL_CONFIGS.getD baseIndex defaultConfig
    let penalty := s.endlessStage / 3
    let baseValue := max 1 (base.mistakesAllowed - penalty)
    let s' := updateMistakeLimits
      { s with availableColors := base.colors,
               maxTrains := min (base.maxTrains + s.endlessStage / 2) 18,
               activeModifiers := unlockMods base.modifiers s.endlessStage } baseValue
    { s' with activeModifiers := dedupFirst s'.activeModifiers }
  | Mode.campaign =>
    let cfg := LEVEL_CONFIGS.getD s.levelIndex defaultConfig
    let s' := updateMistakeLimits
      { s with availableColors := cfg.colors,
               maxTrains := cfg.maxTrains,
               activeModifiers := cfg.modifiers } cfg.mistakesAllowed
    { s' with activeModifiers := dedupFirst s'.activeModifiers }

/-- `Game.initialize_trains`: regenerate the track queue with
`max_trains` trains, each colored by `random.choice(available_colors)`
(the oracle `pick` supplies the random index). -/
def initializeTrains (s : GameState) (pick : Nat → Nat) : GameState :=
  let queue := (List.range s.maxTrains).map
    (fun i => s.availableColors.getD (pick i % s.availableColors.length) Color.red)
  { s with trackQueue := queue }

/-- `Game.reset_game`: zero the per-run counters, reapply the level
rules and regenerate the trains.  High scores, mode, zen mode and the
difficulty offset are untouched. -/
def resetGame (s : GameState) (pick : Nat → Nat) : GameState :=
  initializeTrains
    (applyLevelRules
      { s with score := 0, mistakes := 0, currentIndex := 0,
               levelIndex := 0, endlessStage := 0, comboCount := 0,
               gameOverReason := none }) pick

/-- `Game.on_correct_match`: score, index and combo all increment; then
the forgiveness rule fires when the incremented combo is a multiple of
4 and `mistakes > 0`. -/
def onCorrectMatch (s : GameState) : GameState :=
  let s' := { s with score := s.score + 1,
                     currentIndex := s.currentIndex + 1,
                     comboCount := s.comboCount + 1 }
  if s'.comboCount % 4 = 0 ∧ 0 < s'.mistakes
  then { s' with mistakes := s'.mistakes - 1 } else s'

/-- `Game.on_wrong_match`: reset the combo, increment `mistakes`; under
zen mode return early, otherwise on reaching `max_mistakes` transition
to GAME_OVER with reason `'mistakes'` and snapshot the current mode's
high score. -/
def onWrongMatch (s : GameState) : GameState :=
  let s' := { s with comboCount := 0, mistakes := s.mistakes + 1 }
  if s'.zenMode then s'
  else if (s'.maxMistakes : Int) ≤ s'.mistakes then
    let s'' := { s' with gstate := GState.gameOver,
                         gameOverReason := some Reason.mistakes }
    match s''.mode with
    | Mode.endless =>
      { s'' with endlessHighScore := max s''.endlessHighScore s''.score }
    | Mode.campaign =>
      { s'' with highScore := max s''.highScore s''.score }
  else s'

/-- `ModernGame.match_train` guarded by `handle_keyboard_input`'s
`state == PLAYING` check: the attempt-match operation of the spec. -/
def attemptMatch (s : GameState) (c : Color) : GameState × MatchOutcome :=
  if s.gstate = GState.playing then
    if s.currentIndex < s.trackQueue.length then
      if c = s.trackQueue.getD s.currentIndex Color.red
      then (onCorrectMatch s, MatchOutcome.correct)
      else (onWrongMatch s, MatchOutcome.wrong)
    else (s, MatchOutcome.noTrainsRemaining)
  else (s, MatchOutcome.ignored)

/-- `Game.handle_level_completion`: endless mode advances the stage
unconditionally, decrements `mistakes` floored at 0, resets the combo
and regenerates the level; campaign mode advances to the next level
(mistakes and combo reset) or, from the last level, ends the session
with reason `'victory'` and snapshots the campaign high score. -/
def handleLevelCompletion (s : GameState) (pick : Nat → Nat) : GameState :=
  match s.mode with
  | Mode.endless =>
    let s' := { s with endlessStage := s.endlessStage + 1,
                       mistakes := max 0 (s.mistakes - 1),
                       comboCount := 0 }
    let s'' := { s' with levelIndex := min s'.endlessStage (LEVEL_CONFIGS.length - 1) }
    initializeTrains (applyLevelRules s'') pick
  | Mode.campaign =>
    if s.levelIndex < LEVEL_CONFIGS.length - 1 then
      let s' := { s with levelIndex := s.levelIndex + 1,
                         mistakes := 0, comboCount := 0 }
      initializeTrains (applyLevelRules s') pick
    else
      { s with gstate := GState.gameOver,
               gameOverReason := some Reason.victory,
               highScore := max s.highScore s.score }

/-- The quit-button path of `Game.handle_click` (MENU or GAME_OVER):
records `game_over_reason = 'quit'` and exits the loop; nothing else in
the session state changes. -/
def quitClick (s : GameState) : GameState :=
  { s with gameOverReason := some Reason.quit }

/-- The start / play-again button paths of `Game.handle_click`: set the
state to PLAYING and reset the game. -/
def startClick (s : GameState) (pick : Nat → Nat) : GameState :=
  resetGame { s with gstate := GState.playing } pick

/-- `ModernGame.toggle_zen_mode`: flip the flag and recompute the
mistake limits from the stored base allowance. -/
def toggleZenMode (s : GameState) : GameState :=
  updateMistakeLimits { s with zenMode := !s.zenMode } s.baseLevelMistakes

/-- `ModernGame.cycle_difficulty`: cycle standard → relaxed → expert
(offsets 0, +1, -1) and recompute the mistake limits. -/
def cycleDifficulty (s : GameState) : GameState :=
  let idx := (s.difficultyIdx + 1) % 3
  let add : Int := if idx = 0 then 0 else if idx = 1 then 1 else -1
  updateMistakeLimits { s with difficultyIdx := idx, additionalMistakes := add }
    s.baseLevelMistakes

/-- `ModernGame.cycle_mode`: switch campaign ↔ endless, return to the
menu and reset the game.  High scores are untouched. -/
def cycleMode (s : GameState) (pick : Nat → Nat) : GameState :=
  resetGame
    { s with mode := (match s.mode with
                      | Mode.campaign => Mode.endless
                      | Mode.endless => Mode.campaign),
             gstate := GState.menu } pick

/-- `Game.__init__` followed by its `reset_game` call: the initial
session state (MENU, campaign mode, both high scores 0, zen off,
standard difficulty). -/
def initState (pick : Nat → Nat) : GameState :=
  resetGame
    { mode := Mode.campaign, gstate := GState.menu, gameOverReason := none,
      score := 0, mistakes := 0, comboCount := 0, currentIndex := 0,
      levelIndex := 0, endlessStage := 0, highScore := 0,
      endlessHighScore := 0, zenMode := false, difficultyIdx := 0,
      additionalMistakes := 0, baseLevelMistakes := 3, maxMistakes := 3,
      maxTrains := 0, availableColors := [], activeModifiers := [],
      trackQueue := [] } pick

/-- One externally triggered operation on the session, as dispatched by
the main loop (`handle_click`, `handle_keyboard_input`, `update`). -/
inductive Step : GameState → GameState → Prop where
  | attempt (s : GameState) (c : Color) : Step s (attemptMatch s c).1
  | complete (s : GameState) (pick : Nat → Nat)
      (hp : s.gstate = GState.playing)
      (hidx : s.trackQueue.length ≤ s.currentIndex) :
      Step s (handleLevelCompletion s pick)
  | start (s : GameState) (pick : Nat → Nat) (h : s.gstate = GState.menu) :
      Step s (startClick s pick)
  | playAgain (s : GameState) (pick : Nat → Nat) (h : s.gstate = GState.gameOver) :
      Step s (startClick s pick)
  | quitStep (s : GameState)
      (h : s.gstate = GState.menu ∨ s.gstate = GState.gameOver) :
      Step s (quitClick s)
  | modeCycle (s : GameState) (pick : Nat → Nat) : Step s (cycleMode s pick)
  | zen (s : GameState) : Step s (toggleZenMode s)
  | difficulty (s : GameState) : Step s (cycleDifficulty s)

/-- A state is reachable when some sequence of operations produces it
from the freshly constructed game. -/
def Reachable (s : GameState) : Prop :=
  ∃ pick, Relation.ReflTransGen Step (initState pick) s

/-- Fixed oracle used by the concrete witness states: always choose the
first available color. -/
def pick0 : Nat → Nat := fun _ => 0

/-- The freshly constructed game (MENU, campaign). -/
def sMenu : GameState := initState pick0

/-- The game right after pressing Start: PLAYING at campaign level 0
with an 8-train all-red queue. -/
def sPlay : GameState := startClick sMenu pick0

/-- A PLAYING state with zen mode enabled. -/
def sZen : GameState := startClick (toggleZenMode sMenu) pick0

/-- A concrete Playing state whose queue is exhausted (used as witness
input; the postcondition theorem does not require reachability). -/
def sDone : GameState :=
  { mode := Mode.campaign, gstate := GState.playing, gameOverReason := none,
    score := 7, mistakes := 1, comboCount := 2, currentIndex := 0,
    levelIndex := 0, endlessStage := 0, highScore := 3, endlessHighScore := 0,
    zenMode := false, difficultyIdx := 0, additionalMistakes := 0,
    baseLevelMistakes := 3, maxMistakes := 3, maxTrains := 8,
    availableColors := [Color.red], activeModifiers := [], trackQueue := [] }

/-- Folding a sequence of `attemptMatch` calls (the player clicking a
sequence of selection colors). -/
def applyAttempts (s : GameState) (cs : List Color) : GameState :=
  cs.foldl (fun t c => (attemptMatch t c).1) s

/-! ## Invariant infrastructure -/

/-- The track-queue size `apply_level_rules` computes for a given mode,
level index and endless stage. -/
def calcMaxTrains (mode : Mode) (levelIndex endlessStage : Nat) : Nat :=
  match mode with
  | Mode.campaign => (LEVEL_CONFIGS.getD levelIndex defaultConfig).maxTrains
  | Mode.endless =>
      min ((LEVEL_CONFIGS.getD (min endlessStage (LEVEL_CONFIGS.length - 1))
              defaultConfig).maxTrains + endlessStage / 2) 18

/-- The inductive invariant maintained by every operation: the match
pointer stays inside the queue, the queue has exactly the configured
number of trains, the configured number agrees with the level rules,
the campaign level index stays in range, and `mistakes` is
nonnegative. -/
def SessionInv (s : GameState) : Prop :=
  s.currentIndex ≤ s.trackQueue.length ∧
  s.trackQueue.length = s.maxTrains ∧
  s.maxTrains = calcMaxTrains s.mode s.levelIndex s.endlessStage ∧
  s.levelIndex ≤ LEVEL_CONFIGS.length - 1 ∧
  0 ≤ s.mistakes

instance (s : GameState) : Decidable (SessionInv s) := by
  unfold SessionInv; infer_instance

lemma initializeTrains_length (s : GameState) (pick : Nat → Nat) :
    (initializeTrains s pick).trackQueue.length = s.maxTrains := by
  simp [initializeTrains]

@[simp] lemma uml_mode (s : GameState) (b : Nat) :
    (updateMistakeLimits s b).mode = s.mode := rfl
@[simp] lemma uml_gstate (s : GameState) (b : Nat) :
    (updateMistakeLimits s b).gstate = s.gstate := rfl
@[simp] lemma uml_gameOverReason (s : GameState) (b : Nat) :
    (updateMistakeLimits s b).gameOverReason = s.gameOverReason := rfl
@[simp] lemma uml_score (s : GameState) (b : Nat) :
    (updateMistakeLimits s b).score = s.score := rfl
@[simp] lemma uml_mistakes (s : GameState) (b : Nat) :
    (updateMistakeLimits s b).mistakes = s.mistakes := rfl
@[simp] lemma uml_comboCount (s : GameState) (b : Nat) :
    (updateMistakeLimits s b).comboCount = s.comboCount := rfl
@[simp] lemma uml_currentIndex (s : GameState) (b : Nat) :
    (updateMistakeLimits s b).currentIndex = s.currentIndex := rfl
@[simp] lemma uml_levelIndex (s : GameState) (b : Nat) :
    (updateMistakeLimits s b).levelIndex = s.levelIndex := rfl
@[simp] lemma uml_endlessStage (s : GameState) (b : Nat) :
    (updateMistakeLimits s b).endlessStage = s.endlessStage := rfl
@[simp] lemma uml_highScore (s : GameState) (b : Nat) :
    (updateMistakeLimits s b).highScore = s.highScore := rfl
@[simp] lemma uml_endlessHighScore (s : GameState) (b : Nat) :
    (updateMistakeLimits s b).endlessHighScore = s.endlessHighScore := rfl
@[simp] lemma uml_zenMode (s : GameState) (b : Nat) :
    (updateMistakeLimits s b).zenMode = s.zenMode := rfl
@[simp] lemma uml_maxTrains (s : GameState) (b : Nat) :
    (updateMistakeLimits s b).maxTrains = s.maxTrains := rfl
@[simp] lemma uml_availableColors (s : GameState) (b : Nat) :
    (updateMistakeLimits s b).availableColors = s.availableColors := rfl
@[simp] lemma uml_activeModifiers (s : GameState) (b : Nat) :
    (updateMistakeLimits s b).activeModifiers = s.activeModifiers := rfl
@[simp] lemma uml_trackQueue (s : GameState) (b : Nat) :
    (updateMistakeLimits s b).trackQueue = s.trackQueue := rfl

@[simp] lemma it_mode (s : GameState) (p : Nat → Nat) :
    (initializeTrains s p).mode = s.mode := rfl
@[simp] lemma it_gstate (s : GameState) (p : Nat → Nat) :
    (initializeTrains s p).gstate = s.gstate := rfl
@[simp] lemma it_gameOverReason (s : GameState) (p : Nat → Nat) :
    (initializeTrains s p).gameOverReason = s.gameOverReason := rfl
@[simp] lemma it_score (s : GameState) (p : Nat → Nat) :
    (initializeTrains s p).score = s.score := rfl
@[simp] lemma it_mistakes (s : GameState) (p : Nat → Nat) :
    (initializeTrains s p).mistakes = s.mistakes := rfl
@[simp] lemma it_comboCount (s : GameState) (p : Nat → Nat) :
    (initializeTrains s p).comboCount = s.comboCount := rfl
@[simp] lemma it_currentIndex (s : GameState) (p : Nat → Nat) :
    (initializeTrains s p).currentIndex = s.currentIndex := rfl
@[simp] lemma it_levelIndex (s : GameState) (p : Nat → Nat) :
    (initializeTrains s p).levelIndex = s.levelIndex := rfl
@[simp] lemma it_endlessStage (s : GameState) (p : Nat → Nat) :
    (initializeTrains s p).endlessStage = s.endlessStage := rfl
@[simp] lemma it_highScore (s : GameState) (p : Nat → Nat) :
    (initializeTrains s p).highScore = s.highScore := rfl
@[simp] lemma it_endlessHighScore (s : GameState) (p : Nat → Nat) :
    (initializeTrains s p).endlessHighScore = s.endlessHighScore := rfl
@[simp] lemma it_zenMode (s : GameState) (p : Nat → Nat) :
    (initializeTrains s p).zenMode = s.zenMode := rfl
@[simp] lemma it_maxTrains (s : GameState) (p : Nat → Nat) :
    (initializeTrains s p).maxTrains = s.maxTrains := rfl
@[simp] lemma it_maxMistakes (s : GameState) (p : Nat → Nat) :
    (initializeTrains s p).maxMistakes = s.maxMistakes := rfl
@[simp] lemma it_availableColors (s : GameState) (p : Nat → Nat) :
    (initializeTrains s p).availableColors = s.availableColors := rfl
@[simp] lemma it_activeModifiers (s : GameState) (p : Nat → Nat) :
    (initializeTrains s p).activeModifiers = s.activeModifiers := rfl
@[simp] lemma it_trackQueue_length (s : GameState) (p : Nat → Nat) :
    (initializeTrains s p).trackQueue.length = s.maxTrains := by
  simp [initializeTrains]

@[simp] lemma alr_mode (s : GameState) : (applyLevelRules s).mode = s.mode := by
  cases h : s.mode <;> simp [applyLevelRules, h]
@[simp] lemma alr_gstate (s : GameState) : (applyLevelRules s).gstate = s.gstate := by
  cases h : s.mode <;> simp [applyLevelRules, h]
@[simp] lemma alr_gameOverReason (s : GameState) :
    (applyLevelRules s).gameOverReason = s.gameOverReason := by
  cases h : s.mode <;> simp [applyLevelRules, h]
@[simp] lemma alr_score (s : GameState) : (applyLevelRules s).score = s.score := by
  cases h : s.mode <;> simp [applyLevelRules, h]
@[simp] lemma alr_mistakes (s : GameState) : (applyLevelRules s).mistakes = s.mistakes := by
  cases h : s.mode <;> simp [applyLevelRules, h]
@[simp] lemma alr_comboCount (s : GameState) :
    (applyLevelRules s).comboCount = s.comboCount := by
  cases h : s.mode <;> simp [applyLevelRules, h]
@[simp] lemma alr_currentIndex (s : GameState) :
    (applyLevelRules s).currentIndex = s.currentIndex := by
  cases h : s.mode <;> simp [applyLevelRules, h]
@[simp] lemma alr_levelIndex (s : GameState) :
    (applyLevelRules s).levelIndex = s.levelIndex := by
  cases h : s.mode <;> simp [applyLevelRules, h]
@[simp] lemma alr_endlessStage (s : GameState) :
    (applyLevelRules s).endlessStage = s.endlessStage := by
  cases h : s.mode <;> simp [applyLevelRules, h]
@[simp] lemma alr_highScore (s : GameState) :
    (applyLevelRules s).highScore = s.highScore := by
  cases h : s.mode <;> simp [applyLevelRules, h]
@[simp] lemma alr_endlessHighScore (s : GameState) :
    (applyLevelRules s).endlessHighScore = s.endlessHighScore := by
  cases h : s.mode <;> simp [applyLevelRules, h]
@[simp] lemma alr_zenMode (s : GameState) : (applyLevelRules s).zenMode = s.zenMode := by
  cases h : s.mode <;> simp [applyLevelRules, h]
@[simp] lemma alr_trackQueue (s : GameState) :
    (applyLevelRules s).trackQueue = s.trackQueue := by
  cases h : s.mode <;> simp [applyLevelRules, h]
@[simp] lemma alr_maxTrains (s : GameState) :
    (applyLevelRules s).maxTrains = calcMaxTrains s.mode s.levelIndex s.endlessStage := by
  cases h : s.mode <;> simp [applyLevelRules, calcMaxTrains, h]

lemma calc_endless_le_18 (l st : Nat) :
    calcMaxTrains Mode.endless l st ≤ 18 := by
  simp [calcMaxTrains]

lemma calc_campaign_le_16 (l st : Nat) (h : l ≤ LEVEL_CONFIGS.length - 1) :
    calcMaxTrains Mode.campaign l st ≤ 16 := by
  have h5 : l ≤ 5 := by
    have : LEVEL_CONFIGS.length - 1 = 5 := by decide
    omega
  simp only [calcMaxTrains]
  interval_cases l <;> decide

lemma calc_endless_mono (l l' st : Nat) :
    calcMaxTrains Mode.endless l st ≤ calcMaxTrains Mode.endless l' (st + 1) := by
  simp only [calcMaxTrains]
  rcases Nat.lt_or_ge st 5 with h | h
  · interval_cases st <;> decide
  · have hlen : LEVEL_CONFIGS.length - 1 = 5 := by decide
    have h1 : min st (LEVEL_CONFIGS.length - 1) = 5 := by omega
    have h2 : min (st + 1) (LEVEL_CONFIGS.length - 1) = 5 := by omega
    rw [h1, h2]
    have h16 : (LEVEL_CONFIGS.getD 5 defaultConfig).maxTrains = 16 := by decide
    rw [h16]
    omega

lemma calc_campaign_mono (l st st' : Nat) (h : l < LEVEL_CONFIGS.length - 1) :
    calcMaxTrains Mode.campaign l st ≤ calcMaxTrains Mode.campaign (l + 1) st' := by
  have h5 : l < 5 := by
    have : LEVEL_CONFIGS.length - 1 = 5 := by decide
    omega
  simp only [calcMaxTrains]
  interval_cases l <;> decide

@[simp] lemma rg_mode (s : GameState) (p : Nat → Nat) :
    (resetGame s p).mode = s.mode := by simp [resetGame]
@[simp] lemma rg_gstate (s : GameState) (p : Nat → Nat) :
    (resetGame s p).gstate = s.gstate := by simp [resetGame]
@[simp] lemma rg_gameOverReason (s : GameState) (p : Nat → Nat) :
    (resetGame s p).gameOverReason = none := by simp [resetGame]
@[simp] lemma rg_score (s : GameState) (p : Nat → Nat) :
    (resetGame s p).score = 0 := by simp [resetGame]
@[simp] lemma rg_mistakes (s : GameState) (p : Nat → Nat) :
    (resetGame s p).mistakes = 0 := by simp [resetGame]
@[simp] lemma rg_comboCount (s : GameState) (p : Nat → Nat) :
    (resetGame s p).comboCount = 0 := by simp [resetGame]
@[simp] lemma rg_currentIndex (s : GameState) (p : Nat → Nat) :
    (resetGame s p).currentIndex = 0 := by simp [resetGame]
@[simp] lemma rg_levelIndex (s : GameState) (p : Nat → Nat) :
    (resetGame s p).levelIndex = 0 := by simp [resetGame]
@[simp] lemma rg_endlessStage (s : GameState) (p : Nat → Nat) :
    (resetGame s p).endlessStage = 0 := by simp [resetGame]
@[simp] lemma rg_highScore (s : GameState) (p : Nat → Nat) :
    (resetGame s p).highScore = s.highScore := by simp [resetGame]
@[simp] lemma rg_endlessHighScore (s : GameState) (p : Nat → Nat) :
    (resetGame s p).endlessHighScore = s.endlessHighScore := by simp [resetGame]
@[simp] lemma rg_zenMode (s : GameState) (p : Nat → Nat) :
    (resetGame s p).zenMode = s.zenMode := by simp [resetGame]
@[simp] lemma rg_maxTrains (s : GameState) (p : Nat → Nat) :
    (resetGame s p).maxTrains = calcMaxTrains s.mode 0 0 := by simp [resetGame]
@[simp] lemma rg_trackQueue_length (s : GameState) (p : Nat → Nat) :
    (resetGame s p).trackQueue.length = calcMaxTrains s.mode 0 0 := by
  simp [resetGame]

@[simp] lemma ocm_mode (s : GameState) : (onCorrectMatch s).mode = s.mode := by
  simp only [onCorrectMatch]; split <;> rfl
@[simp] lemma ocm_gstate (s : GameState) : (onCorrectMatch s).gstate = s.gstate := by
  simp only [onCorrectMatch]; split <;> rfl
@[simp] lemma ocm_gameOverReason (s : GameState) :
    (onCorrectMatch s).gameOverReason = s.gameOverReason := by
  simp only [onCorrectMatch]; split <;> rfl
@[simp] lemma ocm_score (s : GameState) : (onCorrectMatch s).score = s.score + 1 := by
  simp only [onCorrectMatch]; split <;> rfl
@[simp] lemma ocm_comboCount (s : GameState) :
    (onCorrectMatch s).comboCount = s.comboCount + 1 := by
  simp only [onCorrectMatch]; split <;> rfl
@[simp] lemma ocm_currentIndex (s : GameState) :
    (onCorrectMatch s).currentIndex = s.currentIndex + 1 := by
  simp only [onCorrectMatch]; split <;> rfl
@[simp] lemma ocm_levelIndex (s : GameState) :
    (onCorrectMatch s).levelIndex = s.levelIndex := by
  simp only [onCorrectMatch]; split <;> rfl
@[simp] lemma ocm_endlessStage (s : GameState) :
    (onCorrectMatch s).endlessStage = s.endlessStage := by
  simp only [onCorrectMatch]; split <;> rfl
@[simp] lemma ocm_highScore (s : GameState) :
    (onCorrectMatch s).highScore = s.highScore := by
  simp only [onCorrectMatch]; split <;> rfl
@[simp] lemma ocm_endlessHighScore (s : GameState) :
    (onCorrectMatch s).endlessHighScore = s.endlessHighScore := by
  simp only [onCorrectMatch]; split <;> rfl
@[simp] lemma ocm_zenMode (s : GameState) : (onCorrectMatch s).zenMode = s.zenMode := by
  simp only [onCorrectMatch]; split <;> rfl
@[simp] lemma ocm_maxTrains (s : GameState) :
    (onCorrectMatch s).maxTrains = s.maxTrains := by
  simp only [onCorrectMatch]; split <;> rfl
@[simp] lemma ocm_maxMistakes (s : GameState) :
    (onCorrectMatch s).maxMistakes = s.maxMistakes := by
  simp only [onCorrectMatch]; split <;> rfl
@[simp] lemma ocm_trackQueue (s : GameState) :
    (onCorrectMatch s).trackQueue = s.trackQueue := by
  simp only [onCorrectMatch]; split <;> rfl

lemma ocm_mistakes (s : GameState) :
    (onCorrectMatch s).mistakes =
      if (s.comboCount + 1) % 4 = 0 ∧ 0 < s.mistakes
      then s.mistakes - 1 else s.mistakes := by
  simp only [onCorrectMatch]
  split <;> rfl

@[simp] lemma owm_mode (s : GameState) : (onWrongMatch s).mode = s.mode := by
  simp only [onWrongMatch]
  split
  · rfl
  · split
    · split <;> rfl
    · rfl

@[simp] lemma owm_score (s : GameState) : (onWrongMatch s).score = s.score := by
  simp only [onWrongMatch]
  split
  · rfl
  · split
    · split <;> rfl
    · rfl

@[simp] lemma owm_mistakes (s : GameState) : (onWrongMatch s).mistakes = s.mistakes + 1 := by
  simp only [onWrongMatch]
  split
  · rfl
  · split
    · split <;> rfl
    · rfl

@[simp] lemma owm_comboCount (s : GameState) : (onWrongMatch s).comboCount = 0 := by
  simp only [onWrongMatch]
  split
  · rfl
  · split
    · split <;> rfl
    · rfl

@[simp] lemma owm_currentIndex (s : GameState) : (onWrongMatch s).currentIndex = s.currentIndex := by
  simp only [onWrongMatch]
  split
  · rfl
  · split
    · split <;> rfl
    · rfl

@[simp] lemma owm_levelIndex (s : GameState) : (onWrongMatch s).levelIndex = s.levelIndex := by
  simp only [onWrongMatch]
  split
  · rfl
  · split
    · split <;> rfl
    · rfl

@[simp] lemma owm_endlessStage (s : GameState) : (onWrongMatch s).endlessStage = s.endlessStage := by
  simp only [onWrongMatch]
  split
  · rfl
  · split
    · split <;> rfl
    · rfl

@[simp] lemma owm_zenMode (s : GameState) : (onWrongMatch s).zenMode = s.zenMode := by
  simp only [onWrongMatch]
  split
  · rfl
  · split
    · split <;> rfl
    · rfl

@[simp] lemma owm_maxTrains (s : GameState) : (onWrongMatch s).maxTrains = s.maxTrains := by
  simp only [onWrongMatch]
  split
  · rfl
  · split
    · split <;> rfl
    · rfl

@[simp] lemma owm_maxMistakes (s : GameState) : (onWrongMatch s).maxMistakes = s.maxMistakes := by
  simp only [onWrongMatch]
  split
  · rfl
  · split
    · split <;> rfl
    · rfl

@[simp] lemma owm_trackQueue (s : GameState) : (onWrongMatch s).trackQueue = s.trackQueue := by
  simp only [onWrongMatch]
  split
  · rfl
  · split
    · split <;> rfl
    · rfl

@[simp] lemma owm_availableColors (s : GameState) : (onWrongMatch s).availableColors = s.availableColors := by
  simp only [onWrongMatch]
  split
  · rfl
  · split
    · split <;> rfl
    · rfl

lemma attemptMatch_correct (s : GameState) (c : Color)
    (hp : s.gstate = GState.playing)
    (hidx : s.currentIndex < s.trackQueue.length)
    (hc : c = s.trackQueue.getD s.currentIndex Color.red) :
    attemptMatch s c = (onCorrectMatch s, MatchOutcome.correct) := by
  simp [attemptMatch, hp, hidx, hc]

lemma attemptMatch_wrong (s : GameState) (c : Color)
    (hp : s.gstate = GState.playing)
    (hidx : s.currentIndex < s.trackQueue.length)
    (hc : c ≠ s.trackQueue.getD s.currentIndex Color.red) :
    attemptMatch s c = (onWrongMatch s, MatchOutcome.wrong) := by
  rw [List.getD_eq_getElem _ _ hidx] at hc
  simp [attemptMatch, hp, hidx, hc]

lemma attemptMatch_noop (s : GameState) (c : Color)
    (hp : s.gstate = GState.playing)
    (hidx : ¬ s.currentIndex < s.trackQueue.length) :
    attemptMatch s c = (s, MatchOutcome.noTrainsRemaining) := by
  simp [attemptMatch, hp, hidx]

lemma attemptMatch_ignored (s : GameState) (c : Color)
    (hp : s.gstate ≠ GState.playing) :
    attemptMatch s c = (s, MatchOutcome.ignored) := by
  simp [attemptMatch, hp]

lemma hlc_endless (s : GameState) (pick : Nat → Nat) (hm : s.mode = Mode.endless) :
    handleLevelCompletion s pick =
      initializeTrains (applyLevelRules
        { s with endlessStage := s.endlessStage + 1,
                 mistakes := max 0 (s.mistakes - 1), comboCount := 0,
                 levelIndex := min (s.endlessStage + 1) (LEVEL_CONFIGS.length - 1) }) pick := by
  simp [handleLevelCompletion, hm]

lemma hlc_campaign_adv (s : GameState) (pick : Nat → Nat)
    (hm : s.mode = Mode.campaign) (hl : s.levelIndex < LEVEL_CONFIGS.length - 1) :
    handleLevelCompletion s pick =
      initializeTrains (applyLevelRules
        { s with levelIndex := s.levelIndex + 1, mistakes := 0, comboCount := 0 }) pick := by
  simp [handleLevelCompletion, hm, hl]

lemma hlc_campaign_victory (s : GameState) (pick : Nat → Nat)
    (hm : s.mode = Mode.campaign) (hl : ¬ s.levelIndex < LEVEL_CONFIGS.length - 1) :
    handleLevelCompletion s pick =
      { s with gstate := GState.gameOver, gameOverReason := some Reason.victory,
               highScore := max s.highScore s.score } := by
  simp [handleLevelCompletion, hm, hl]

lemma inv_attempt (s : GameState) (c : Color) (hinv : SessionInv s) :
    SessionInv (attemptMatch s c).1 := by
  obtain ⟨h1, h2, h3, h4, h5⟩ := hinv
  by_cases hp : s.gstate = GState.playing
  · by_cases hidx : s.currentIndex < s.trackQueue.length
    · by_cases hc : c = s.trackQueue.getD s.currentIndex Color.red
      · rw [attemptMatch_correct s c hp hidx hc]
        refine ⟨?_, ?_, ?_, ?_, ?_⟩
        · simp; omega
        · simp [h2]
        · simp [h3]
        · simpa using h4
        · rw [ocm_mistakes]; split <;> omega
      · rw [attemptMatch_wrong s c hp hidx hc]
        refine ⟨?_, ?_, ?_, ?_, ?_⟩
        · simp [h1]
        · simp [h2]
        · simp [h3]
        · simpa using h4
        · simp; omega
    · rw [attemptMatch_noop s c hp hidx]
      exact ⟨h1, h2, h3, h4, h5⟩
  · rw [attemptMatch_ignored s c hp]
    exact ⟨h1, h2, h3, h4, h5⟩

lemma inv_complete (s : GameState) (pick : Nat → Nat)
    (hidx : s.trackQueue.length ≤ s.currentIndex) (hinv : SessionInv s) :
    SessionInv (handleLevelCompletion s pick) := by
  obtain ⟨h1, h2, h3, h4, h5⟩ := hinv
  have hidx' : s.currentIndex = s.trackQueue.length := le_antisymm h1 hidx
  cases hm : s.mode with
  | endless =>
    rw [hlc_endless s pick hm]
    refine ⟨?_, ?_, ?_, ?_, ?_⟩
    · simp only [it_currentIndex, it_trackQueue_length, alr_currentIndex, alr_maxTrains,
        alr_mode, alr_levelIndex, alr_endlessStage]
      calc s.currentIndex = s.trackQueue.length := hidx'
        _ = calcMaxTrains s.mode s.levelIndex s.endlessStage := by rw [h2, h3]
        _ ≤ _ := by rw [hm]; exact calc_endless_mono _ _ _
    · simp
    · simp [hm]
    · simp
    · simp
  | campaign =>
    by_cases hl : s.levelIndex < LEVEL_CONFIGS.length - 1
    · rw [hlc_campaign_adv s pick hm hl]
      refine ⟨?_, ?_, ?_, ?_, ?_⟩
      · simp only [it_currentIndex, it_trackQueue_length, alr_currentIndex, alr_maxTrains,
          alr_mode, alr_levelIndex, alr_endlessStage]
        calc s.currentIndex = s.trackQueue.length := hidx'
          _ = calcMaxTrains s.mode s.levelIndex s.endlessStage := by rw [h2, h3]
          _ ≤ _ := by rw [hm]; exact calc_campaign_mono _ _ _ hl
      · simp
      · simp [hm]
      · simp
        omega
      · simp
    · rw [hlc_campaign_victory s pick hm hl]
      exact ⟨h1, h2, h3, h4, h5⟩

lemma inv_resetGame (s : GameState) (pick : Nat → Nat) :
    SessionInv (resetGame s pick) := by
  refine ⟨?_, ?_, ?_, ?_, ?_⟩ <;> simp

lemma inv_startClick (s : GameState) (pick : Nat → Nat) :
    SessionInv (startClick s pick) := inv_resetGame _ pick

lemma inv_cycleMode (s : GameState) (pick : Nat → Nat) :
    SessionInv (cycleMode s pick) := inv_resetGame _ pick

lemma inv_quit (s : GameState) (h : SessionInv s) : SessionInv (quitClick s) := h

lemma inv_zen (s : GameState) (h : SessionInv s) : SessionInv (toggleZenMode s) := by
  obtain ⟨h1, h2, h3, h4, h5⟩ := h
  exact ⟨h1, h2, h3, h4, h5⟩

lemma inv_difficulty (s : GameState) (h : SessionInv s) :
    SessionInv (cycleDifficulty s) := by
  obtain ⟨h1, h2, h3, h4, h5⟩ := h
  exact ⟨h1, h2, h3, h4, h5⟩

lemma inv_initState (pick : Nat → Nat) : SessionInv (initState pick) :=
  inv_resetGame _ pick

lemma step_inv (s s' : GameState) (h : Step s s') (hinv : SessionInv s) :
    SessionInv s' := by
  cases h with
  | attempt c => exact inv_attempt s c hinv
  | complete pick hp hidx => exact inv_complete s pick hidx hinv
  | start pick hp => exact inv_startClick s pick
  | playAgain pick hp => exact inv_startClick s pick
  | quitStep hp => exact inv_quit s hinv
  | modeCycle pick => exact inv_cycleMode s pick
  | zen => exact inv_zen s hinv
  | difficulty => exact inv_difficulty s hinv

lemma reachable_inv (s : GameState) (h : Reachable s) : SessionInv s := by
  obtain ⟨pick, hsteps⟩ := h
  induction hsteps with
  | refl => exact inv_initState pick
  | tail _ hstep ih => exact step_inv _ _ hstep ih

lemma owm_zen (s : GameState) (hz : s.zenMode = true) :
    onWrongMatch s = { s with comboCount := 0, mistakes := s.mistakes + 1 } := by
  simp [onWrongMatch, hz]

lemma owm_stay (s : GameState) (hz : s.zenMode = false)
    (hlt : s.mistakes + 1 < (s.maxMistakes : Int)) :
    onWrongMatch s = { s with comboCount := 0, mistakes := s.mistakes + 1 } := by
  simp only [onWrongMatch, hz, Bool.false_eq_true, if_false]
  rw [if_neg (by omega)]

lemma owm_over_campaign (s : GameState) (hz : s.zenMode = false)
    (hge : (s.maxMistakes : Int) ≤ s.mistakes + 1) (hm : s.mode = Mode.campaign) :
    onWrongMatch s =
      { s with comboCount := 0, mistakes := s.mistakes + 1,
               gstate := GState.gameOver, gameOverReason := some Reason.mistakes,
               highScore := max s.highScore s.score } := by
  simp only [onWrongMatch, hz, Bool.false_eq_true, if_false]
  rw [if_pos (by omega)]
  simp [hm]

lemma owm_over_endless (s : GameState) (hz : s.zenMode = false)
    (hge : (s.maxMistakes : Int) ≤ s.mistakes + 1) (hm : s.mode = Mode.endless) :
    onWrongMatch s =
      { s with comboCount := 0, mistakes := s.mistakes + 1,
               gstate := GState.gameOver, gameOverReason := some Reason.mistakes,
               endlessHighScore := max s.endlessHighScore s.score } := by
  simp only [onWrongMatch, hz, Bool.false_eq_true, if_false]
  rw [if_pos (by omega)]
  simp [hm]

lemma unlockMods_express (l : List Modifier) (st : Nat) (h2 : 2 ≤ st) :
    Modifier.expressSignals ∈ unlockMods l st := by
  unfold unlockMods
  by_cases he : 2 ≤ st ∧ Modifier.expressSignals ∉ l
  · simp only [if_pos he]
    split <;> simp
  · have he' : Modifier.expressSignals ∈ l := by
      rcases not_and_or.mp he with h | h
      · exact absurd h2 h
      · simpa using h
    simp only [if_neg he]
    split <;> simp [he']

lemma unlockMods_fog (l : List Modifier) (st : Nat) (h4 : 4 ≤ st) :
    Modifier.denseFog ∈ unlockMods l st := by
  unfold unlockMods
  by_cases he : 2 ≤ st ∧ Modifier.expressSignals ∉ l
  · simp only [if_pos he]
    by_cases hf : Modifier.denseFog ∈ l ++ [Modifier.expressSignals]
    · rw [if_neg (by simp_all)]; exact hf
    · rw [if_pos ⟨h4, hf⟩]; simp
  · simp only [if_neg he]
    by_cases hf : Modifier.denseFog ∈ l
    · rw [if_neg (by simp_all)]; exact hf
    · rw [if_pos ⟨h4, hf⟩]; simp

lemma mem_dedupFirst (x : Modifier) : ∀ (l : List Modifier), x ∈ dedupFirst l ↔ x ∈ l
  | [] => by simp [dedupFirst]
  | m :: rest => by
    rw [dedupFirst]
    by_cases hx : x = m
    · subst hx; simp
    · simp only [List.mem_cons, hx, false_or]
      rw [mem_dedupFirst x (rest.filter (fun y => y ≠ m))]
      simp [List.mem_filter, hx]
termination_by l => l.length
decreasing_by
  simp only [List.length_cons]
  exact Nat.lt_succ_of_le (List.length_filter_le _ _)

lemma dedupFirst_nodup : ∀ (l : List Modifier), (dedupFirst l).Nodup
  | [] => by simp [dedupFirst]
  | m :: rest => by
    rw [dedupFirst]
    refine List.nodup_cons.mpr ⟨?_, dedupFirst_nodup _⟩
    intro hmem
    have := (mem_dedupFirst m _).mp hmem
    simp [List.mem_filter] at this
termination_by l => l.length
decreasing_by
  all_goals simp only [List.length_cons]
  all_goals exact Nat.lt_succ_of_le (List.length_filter_le _ _)

lemma config_colors_pos (i : Nat) :
    0 < (LEVEL_CONFIGS.getD i defaultConfig).colors.length := by
  rcases Nat.lt_or_ge i 6 with h | h
  · interval_cases i <;> decide
  · rw [List.getD_eq_default]
    · decide
    · simpa [LEVEL_CONFIGS] using h

lemma initializeTrains_mem (s : GameState) (pick : Nat → Nat) (x : Color)
    (hpos : 0 < s.availableColors.length)
    (hx : x ∈ (initializeTrains s pick).trackQueue) : x ∈ s.availableColors := by
  simp only [initializeTrains, List.mem_map, List.mem_range] at hx
  obtain ⟨i, _, hi⟩ := hx
  rw [← hi]
  have hlt : pick i % s.availableColors.length < s.availableColors.length :=
    Nat.mod_lt _ hpos
  rw [List.getD_eq_getElem _ _ hlt]
  exact List.getElem_mem _

lemma alr_colors_campaign (s : GameState) (hm : s.mode = Mode.campaign) :
    (applyLevelRules s).availableColors =
      (LEVEL_CONFIGS.getD s.levelIndex defaultConfig).colors := by
  simp [applyLevelRules, hm]

lemma alr_colors_endless (s : GameState) (hm : s.mode = Mode.endless) :
    (applyLevelRules s).availableColors =
      (LEVEL_CONFIGS.getD (min s.endlessStage (LEVEL_CONFIGS.length - 1))
        defaultConfig).colors := by
  simp [applyLevelRules, hm]

lemma alr_modifiers_endless (s : GameState) (hm : s.mode = Mode.endless) :
    (2 ≤ s.endlessStage →
      Modifier.expressSignals ∈ (applyLevelRules s).activeModifiers) ∧
    (4 ≤ s.endlessStage →
      Modifier.denseFog ∈ (applyLevelRules s).activeModifiers) ∧
    (applyLevelRules s).activeModifiers.Nodup := by
  have hmods : (applyLevelRules s).activeModifiers =
      dedupFirst (unlockMods
        (LEVEL_CONFIGS.getD (min s.endlessStage (LEVEL_CONFIGS.length - 1))
          defaultConfig).modifiers s.endlessStage) := by
    simp [applyLevelRules, hm]
  rw [hmods]
  refine ⟨?_, ?_, dedupFirst_nodup _⟩
  · intro h2
    exact (mem_dedupFirst _ _).mpr (unlockMods_express _ _ h2)
  · intro h4
    exact (mem_dedupFirst _ _).mpr (unlockMods_fog _ _ h4)

/-- C1 (forgiveness rule): a correct match (state Playing, pointer in
range, chosen color equal to the current train's color) increments
score, currentIndex and comboCount by 1, and then decrements mistakes
by exactly 1 if and only if the new comboCount is a positive multiple
of 4 and mistakes was positive at that moment; otherwise mistakes is
unchanged. -/
theorem correct_match_forgiveness (s : GameState) (c : Color)
    (hp : s.gstate = GState.playing)
    (hidx : s.currentIndex < s.trackQueue.length)
    (hc : c = s.trackQueue.getD s.currentIndex Color.red) :
    (attemptMatch s c).1.score = s.score + 1 ∧
    (attemptMatch s c).1.currentIndex = s.currentIndex + 1 ∧
    (attemptMatch s c).1.comboCount = s.comboCount + 1 ∧
    (attemptMatch s c).2 = MatchOutcome.correct ∧
    ((attemptMatch s c).1.mistakes = s.mistakes - 1 ↔
      (0 < (attemptMatch s c).1.comboCount ∧
       4 ∣ (attemptMatch s c).1.comboCount ∧ 0 < s.mistakes)) ∧
    (¬ (4 ∣ (attemptMatch s c).1.comboCount ∧ 0 < s.mistakes) →
      (attemptMatch s c).1.mistakes = s.mistakes) := by
  rw [attemptMatch_correct s c hp hidx hc]
  refine ⟨by simp, by simp, by simp, rfl, ?_, ?_⟩
  · simp only [ocm_mistakes, ocm_comboCount, Nat.dvd_iff_mod_eq_zero]
    split
    · rename_i h
      constructor
      · intro _; exact ⟨Nat.succ_pos _, h.1, h.2⟩
      · intro _; rfl
    · rename_i h
      constructor
      · intro heq; omega
      · intro ⟨_, h2, h3⟩; exact absurd ⟨h2, h3⟩ h
  · simp only [ocm_mistakes, ocm_comboCount, Nat.dvd_iff_mod_eq_zero]
    intro h
    rw [if_neg h]

/-- C1 witness: the theorem applied at the concrete post-start state
(queue of 8 red trains), matching red. -/
theorem correct_match_forgiveness_witness :
    (sPlay.gstate = GState.playing ∧
     sPlay.currentIndex < sPlay.trackQueue.length ∧
     Color.red = sPlay.trackQueue.getD sPlay.currentIndex Color.red) ∧
    ((attemptMatch sPlay Color.red).1.score = sPlay.score + 1 ∧
     (attemptMatch sPlay Color.red).1.currentIndex = sPlay.currentIndex + 1 ∧
     (attemptMatch sPlay Color.red).1.comboCount = sPlay.comboCount + 1 ∧
     (attemptMatch sPlay Color.red).2 = MatchOutcome.correct ∧
     ((attemptMatch sPlay Color.red).1.mistakes = sPlay.mistakes - 1 ↔
       (0 < (attemptMatch sPlay Color.red).1.comboCount ∧
        4 ∣ (attemptMatch sPlay Color.red).1.comboCount ∧ 0 < sPlay.mistakes)) ∧
    (¬ (4 ∣ (attemptMatch sPlay Color.red).1.comboCount ∧ 0 < sPlay.mistakes) →
      (attemptMatch sPlay Color.red).1.mistakes = sPlay.mistakes)) :=
  ⟨⟨by decide, by decide, by decide⟩,
   correct_match_forgiveness sPlay Color.red (by decide) (by decide) (by decide)⟩

/-- C2 (game-over trigger): a wrong match (state Playing, pointer in
range, chosen color different from the current train's color)
increments mistakes and resets comboCount to 0; the session transitions
to GameOver with reason `'mistakes'` and snapshots the active mode's
high score (as a max with the current score) if and only if the
incremented mistakes reach maxMistakes and zen mode is disabled;
otherwise the state stays Playing and the high scores are unchanged. -/
theorem wrong_match_game_over (s : GameState) (c : Color)
    (hp : s.gstate = GState.playing)
    (hidx : s.currentIndex < s.trackQueue.length)
    (hc : c ≠ s.trackQueue.getD s.currentIndex Color.red) :
    (attemptMatch s c).1.mistakes = s.mistakes + 1 ∧
    (attemptMatch s c).1.comboCount = 0 ∧
    (attemptMatch s c).2 = MatchOutcome.wrong ∧
    (if (s.maxMistakes : Int) ≤ s.mistakes + 1 ∧ s.zenMode = false then
      (attemptMatch s c).1.gstate = GState.gameOver ∧
      (attemptMatch s c).1.gameOverReason = some Reason.mistakes ∧
      (s.mode = Mode.campaign →
        (attemptMatch s c).1.highScore = max s.highScore s.score ∧
        (attemptMatch s c).1.endlessHighScore = s.endlessHighScore) ∧
      (s.mode = Mode.endless →
        (attemptMatch s c).1.endlessHighScore = max s.endlessHighScore s.score ∧
        (attemptMatch s c).1.highScore = s.highScore)
    else
      (attemptMatch s c).1.gstate = GState.playing ∧
      (attemptMatch s c).1.highScore = s.highScore ∧
      (attemptMatch s c).1.endlessHighScore = s.endlessHighScore) := by
  rw [attemptMatch_wrong s c hp hidx hc]
  refine ⟨by simp, by simp, rfl, ?_⟩
  split
  · rename_i h
    obtain ⟨hge, hz⟩ := h
    cases hm : s.mode with
    | campaign => rw [owm_over_campaign s hz hge hm]; simp [hm]
    | endless => rw [owm_over_endless s hz hge hm]; simp [hm]
  · rename_i h
    cases hz : s.zenMode with
    | true => rw [owm_zen s hz]; simpa using hp
    | false =>
      have hlt : s.mistakes + 1 < (s.maxMistakes : Int) := by
        rcases not_and_or.mp h with h1 | h2
        · omega
        · exact absurd hz h2
      rw [owm_stay s hz hlt]
      simpa using hp

/-- C2 witness: the theorem applied at the concrete post-start state,
matching blue against a red train. -/
theorem wrong_match_game_over_witness :
    (sPlay.gstate = GState.playing ∧
     sPlay.currentIndex < sPlay.trackQueue.length ∧
     Color.blue ≠ sPlay.trackQueue.getD sPlay.currentIndex Color.red) ∧
    ((attemptMatch sPlay Color.blue).1.mistakes = sPlay.mistakes + 1 ∧
     (attemptMatch sPlay Color.blue).1.comboCount = 0 ∧
     (attemptMatch sPlay Color.blue).2 = MatchOutcome.wrong ∧
     (if (sPlay.maxMistakes : Int) ≤ sPlay.mistakes + 1 ∧ sPlay.zenMode = false then
       (attemptMatch sPlay Color.blue).1.gstate = GState.gameOver ∧
       (attemptMatch sPlay Color.blue).1.gameOverReason = some Reason.mistakes ∧
       (sPlay.mode = Mode.campaign →
         (attemptMatch sPlay Color.blue).1.highScore = max sPlay.highScore sPlay.score ∧
         (attemptMatch sPlay Color.blue).1.endlessHighScore = sPlay.endlessHighScore) ∧
       (sPlay.mode = Mode.endless →
         (attemptMatch sPlay Color.blue).1.endlessHighScore =
           max sPlay.endlessHighScore sPlay.score ∧
         (attemptMatch sPlay Color.blue).1.highScore = sPlay.highScore)
     else
       (attemptMatch sPlay Color.blue).1.gstate = GState.playing ∧
       (attemptMatch sPlay Color.blue).1.highScore = sPlay.highScore ∧
       (attemptMatch sPlay Color.blue).1.endlessHighScore = sPlay.endlessHighScore)) :=
  ⟨⟨by decide, by decide, by decide⟩,
   wrong_match_game_over sPlay Color.blue (by decide) (by decide) (by decide)⟩

/-- C3 (monotonic bounded index): in every reachable state the match
pointer satisfies `0 ≤ currentIndex ≤ len(trackQueue)` (the lower bound
is by the `Nat` type), and one `attemptMatch` call increases it by
exactly 1 on a Correct outcome, by 0 on a Wrong outcome, and never
decreases it; the bound still holds afterwards. -/
theorem monotonic_bounded_index (s : GameState) (c : Color)
    (h : Reachable s) :
    s.currentIndex ≤ s.trackQueue.length ∧
    ((attemptMatch s c).2 = MatchOutcome.correct →
      (attemptMatch s c).1.currentIndex = s.currentIndex + 1) ∧
    ((attemptMatch s c).2 = MatchOutcome.wrong →
      (attemptMatch s c).1.currentIndex = s.currentIndex) ∧
    s.currentIndex ≤ (attemptMatch s c).1.currentIndex ∧
    (attemptMatch s c).1.currentIndex ≤ (attemptMatch s c).1.trackQueue.length := by
  have hinv := reachable_inv s h
  have hr : Reachable (attemptMatch s c).1 := by
    obtain ⟨pick, htrace⟩ := h
    exact ⟨pick, htrace.tail (Step.attempt s c)⟩
  have hinv' := reachable_inv _ hr
  refine ⟨hinv.1, ?_, ?_, ?_, hinv'.1⟩
  · intro hco
    by_cases hp : s.gstate = GState.playing
    · by_cases hidx : s.currentIndex < s.trackQueue.length
      · by_cases hc : c = s.trackQueue.getD s.currentIndex Color.red
        · rw [attemptMatch_correct s c hp hidx hc]; simp
        · rw [attemptMatch_wrong s c hp hidx hc] at hco; cases hco
      · rw [attemptMatch_noop s c hp hidx] at hco; cases hco
    · rw [attemptMatch_ignored s c hp] at hco; cases hco
  · intro hco
    by_cases hp : s.gstate = GState.playing
    · by_cases hidx : s.currentIndex < s.trackQueue.length
      · by_cases hc : c = s.trackQueue.getD s.currentIndex Color.red
        · rw [attemptMatch_correct s c hp hidx hc] at hco; cases hco
        · rw [attemptMatch_wrong s c hp hidx hc]; simp
      · rw [attemptMatch_noop s c hp hidx] at hco; cases hco
    · rw [attemptMatch_ignored s c hp] at hco; cases hco
  · by_cases hp : s.gstate = GState.playing
    · by_cases hidx : s.currentIndex < s.trackQueue.length
      · by_cases hc : c = s.trackQueue.getD s.currentIndex Color.red
        · rw [attemptMatch_correct s c hp hidx hc]; simp
        · rw [attemptMatch_wrong s c hp hidx hc]; simp
      · rw [attemptMatch_noop s c hp hidx]
    · rw [attemptMatch_ignored s c hp]

/-- C3 witness: the theorem applied at the reachable post-start state,
matching red. -/
theorem monotonic_bounded_index_witness :
    sPlay.currentIndex ≤ sPlay.trackQueue.length ∧
    ((attemptMatch sPlay Color.red).2 = MatchOutcome.correct →
      (attemptMatch sPlay Color.red).1.currentIndex = sPlay.currentIndex + 1) ∧
    ((attemptMatch sPlay Color.red).2 = MatchOutcome.wrong →
      (attemptMatch sPlay Color.red).1.currentIndex = sPlay.currentIndex) ∧
    sPlay.currentIndex ≤ (attemptMatch sPlay Color.red).1.currentIndex ∧
    (attemptMatch sPlay Color.red).1.currentIndex ≤
      (attemptMatch sPlay Color.red).1.trackQueue.length :=
  monotonic_bounded_index sPlay Color.red
    ⟨pick0, Relation.ReflTransGen.tail Relation.ReflTransGen.refl
      (Step.start sMenu pick0 (by decide))⟩

/-- C4 (advanceLevel postcondition): from a Playing state with the
queue exhausted, campaign mode either ends in Victory with the campaign
high score snapshotted (last defined level) or advances the level with
mistakes and combo reset and a fresh queue generated from the next
level definition; endless mode advances the stage unconditionally
(never terminal), decrements mistakes floored at 0, resets the combo,
indexes the base level by `min(endlessStage, lastDefinedLevel)`, and
the active modifier set (duplicate-free) contains ExpressSignals from
stage 2 and DenseFog from stage 4 on. -/
theorem advance_level_postcondition (s : GameState) (pick : Nat → Nat)
    (hp : s.gstate = GState.playing)
    (hpre : s.currentIndex = s.trackQueue.length) :
    (s.mode = Mode.campaign →
      (s.levelIndex = LEVEL_CONFIGS.length - 1 →
        (handleLevelCompletion s pick).gstate = GState.gameOver ∧
        (handleLevelCompletion s pick).gameOverReason = some Reason.victory ∧
        (handleLevelCompletion s pick).highScore = max s.highScore s.score) ∧
      (s.levelIndex < LEVEL_CONFIGS.length - 1 →
        (handleLevelCompletion s pick).levelIndex = s.levelIndex + 1 ∧
        (handleLevelCompletion s pick).mistakes = 0 ∧
        (handleLevelCompletion s pick).comboCount = 0 ∧
        (handleLevelCompletion s pick).gstate = GState.playing ∧
        (handleLevelCompletion s pick).trackQueue.length =
          (LEVEL_CONFIGS.getD (s.levelIndex + 1) defaultConfig).maxTrains ∧
        (∀ x ∈ (handleLevelCompletion s pick).trackQueue,
          x ∈ (LEVEL_CONFIGS.getD (s.levelIndex + 1) defaultConfig).colors))) ∧
    (s.mode = Mode.endless →
      (handleLevelCompletion s pick).endlessStage = s.endlessStage + 1 ∧
      (handleLevelCompletion s pick).gstate = GState.playing ∧
      (handleLevelCompletion s pick).mistakes = max 0 (s.mistakes - 1) ∧
      (handleLevelCompletion s pick).comboCount = 0 ∧
      (handleLevelCompletion s pick).levelIndex =
        min (s.endlessStage + 1) (LEVEL_CONFIGS.length - 1) ∧
      (2 ≤ s.endlessStage + 1 →
        Modifier.expressSignals ∈ (handleLevelCompletion s pick).activeModifiers) ∧
      (4 ≤ s.endlessStage + 1 →
        Modifier.denseFog ∈ (handleLevelCompletion s pick).activeModifiers) ∧
      (handleLevelCompletion s pick).activeModifiers.Nodup) := by
  constructor
  · intro hm
    constructor
    · intro hl
      have hnl : ¬ s.levelIndex < LEVEL_CONFIGS.length - 1 := by omega
      rw [hlc_campaign_victory s pick hm hnl]
      exact ⟨rfl, rfl, rfl⟩
    · intro hl
      rw [hlc_campaign_adv s pick hm hl]
      refine ⟨by simp, by simp, by simp, by simpa using hp, ?_, ?_⟩
      · rw [it_trackQueue_length, alr_maxTrains]
        simp [calcMaxTrains, hm]
      · intro x hx
        have hmode : ({ s with levelIndex := s.levelIndex + 1, mistakes := 0, comboCount := 0 } : GameState).mode = Mode.campaign := hm
        have hcolors := alr_colors_campaign _ hmode
        have hpos : 0 < (applyLevelRules { s with levelIndex := s.levelIndex + 1, mistakes := 0, comboCount := 0 }).availableColors.length := by
          rw [hcolors]; exact config_colors_pos _
        have := initializeTrains_mem _ pick x hpos hx
        rw [hcolors] at this
        exact this
  · intro hm
    rw [hlc_endless s pick hm]
    have hmode : ({ s with endlessStage := s.endlessStage + 1, mistakes := max 0 (s.mistakes - 1), comboCount := 0, levelIndex := min (s.endlessStage + 1) (LEVEL_CONFIGS.length - 1) } : GameState).mode = Mode.endless := hm
    have hmods := alr_modifiers_endless _ hmode
    refine ⟨by simp, by simpa using hp, by simp, by simp, by simp, ?_, ?_, ?_⟩
    · intro h2
      simpa using hmods.1 (by simpa using h2)
    · intro h4
      simpa using hmods.2.1 (by simpa using h4)
    · simpa using hmods.2.2

/-- C4 witness: the theorem applied at a concrete exhausted Playing
state in campaign level 0. -/
theorem advance_level_postcondition_witness :
    (sDone.gstate = GState.playing ∧ sDone.currentIndex = sDone.trackQueue.length) ∧
    ((sDone.mode = Mode.campaign →
      (sDone.levelIndex = LEVEL_CONFIGS.length - 1 →
        (handleLevelCompletion sDone pick0).gstate = GState.gameOver ∧
        (handleLevelCompletion sDone pick0).gameOverReason = some Reason.victory ∧
        (handleLevelCompletion sDone pick0).highScore = max sDone.highScore sDone.score) ∧
      (sDone.levelIndex < LEVEL_CONFIGS.length - 1 →
        (handleLevelCompletion sDone pick0).levelIndex = sDone.levelIndex + 1 ∧
        (handleLevelCompletion sDone pick0).mistakes = 0 ∧
        (handleLevelCompletion sDone pick0).comboCount = 0 ∧
        (handleLevelCompletion sDone pick0).gstate = GState.playing ∧
        (handleLevelCompletion sDone pick0).trackQueue.length =
          (LEVEL_CONFIGS.getD (sDone.levelIndex + 1) defaultConfig).maxTrains ∧
        (∀ x ∈ (handleLevelCompletion sDone pick0).trackQueue,
          x ∈ (LEVEL_CONFIGS.getD (sDone.levelIndex + 1) defaultConfig).colors))) ∧
    (sDone.mode = Mode.endless →
      (handleLevelCompletion sDone pick0).endlessStage = sDone.endlessStage + 1 ∧
      (handleLevelCompletion sDone pick0).gstate = GState.playing ∧
      (handleLevelCompletion sDone pick0).mistakes = max 0 (sDone.mistakes - 1) ∧
      (handleLevelCompletion sDone pick0).comboCount = 0 ∧
      (handleLevelCompletion sDone pick0).levelIndex =
        min (sDone.endlessStage + 1) (LEVEL_CONFIGS.length - 1) ∧
      (2 ≤ sDone.endlessStage + 1 →
        Modifier.expressSignals ∈ (handleLevelCompletion sDone pick0).activeModifiers) ∧
      (4 ≤ sDone.endlessStage + 1 →
        Modifier.denseFog ∈ (handleLevelCompletion sDone pick0).activeModifiers) ∧
      (handleLevelCompletion sDone pick0).activeModifiers.Nodup)) :=
  ⟨⟨by decide, by decide⟩,
   advance_level_postcondition sDone pick0 (by decide) (by decide)⟩

@[simp] lemma applyAttempts_nil (s : GameState) : applyAttempts s [] = s := rfl

lemma applyAttempts_cons (s : GameState) (c : Color) (cs : List Color) :
    applyAttempts s (c :: cs) = applyAttempts (attemptMatch s c).1 cs := rfl

lemma zen_attempt (s : GameState) (c : Color) (hz : s.zenMode = true)
    (hp : s.gstate = GState.playing) :
    (attemptMatch s c).1.gstate = GState.playing ∧
    (attemptMatch s c).1.zenMode = true := by
  by_cases hidx : s.currentIndex < s.trackQueue.length
  · by_cases hc : c = s.trackQueue.getD s.currentIndex Color.red
    · rw [attemptMatch_correct s c hp hidx hc]
      simp [hp, hz]
    · rw [attemptMatch_wrong s c hp hidx hc, owm_zen s hz]
      simp [hp, hz]
  · rw [attemptMatch_noop s c hp hidx]
    exact ⟨hp, hz⟩

lemma applyAttempts_zen_playing (cs : List Color) : ∀ (s : GameState),
    s.zenMode = true → s.gstate = GState.playing →
    (applyAttempts s cs).gstate = GState.playing ∧
    (applyAttempts s cs).zenMode = true := by
  induction cs with
  | nil => intro s hz hp; exact ⟨hp, hz⟩
  | cons c cs ih =>
    intro s hz hp
    rw [applyAttempts_cons]
    obtain ⟨hp', hz'⟩ := zen_attempt s c hz hp
    exact ih _ hz' hp'

lemma applyAttempts_zen_wrong (n : Nat) : ∀ (s : GameState) (c : Color),
    s.zenMode = true → s.gstate = GState.playing →
    s.currentIndex < s.trackQueue.length →
    c ≠ s.trackQueue.getD s.currentIndex Color.red →
    (applyAttempts s (List.replicate n c)).gstate = GState.playing ∧
    (applyAttempts s (List.replicate n c)).mistakes = s.mistakes + n := by
  induction n with
  | zero =>
    intro s c hz hp _ _
    constructor
    · simpa using hp
    · simp
  | succ n ih =>
    intro s c hz hp hidx hc
    rw [List.replicate_succ, applyAttempts_cons,
        attemptMatch_wrong s c hp hidx hc, owm_zen s hz]
    obtain ⟨h1, h2⟩ := ih { s with comboCount := 0, mistakes := s.mistakes + 1 }
      c hz hp hidx hc
    refine ⟨h1, ?_⟩
    rw [h2]
    push_cast
    ring

/-- C5 (zen mode safety): with zen mode enabled, no sequence of match
attempts ever leaves the Playing state (GameOver via mistakes is
unreachable); a single wrong match still increments mistakes by 1 and
resets the combo; and n consecutive wrong matches leave the state
Playing with mistakes increased by exactly n. -/
theorem zen_mode_safety (s : GameState) (cs : List Color) (n : Nat) (c : Color)
    (hz : s.zenMode = true) (hp : s.gstate = GState.playing) :
    (applyAttempts s cs).gstate = GState.playing ∧
    (s.currentIndex < s.trackQueue.length →
      c ≠ s.trackQueue.getD s.currentIndex Color.red →
      ((attemptMatch s c).1.mistakes = s.mistakes + 1 ∧
       (attemptMatch s c).1.comboCount = 0 ∧
       (attemptMatch s c).1.gstate = GState.playing) ∧
      (applyAttempts s (List.replicate n c)).gstate = GState.playing ∧
      (applyAttempts s (List.replicate n c)).mistakes = s.mistakes + n) := by
  refine ⟨(applyAttempts_zen_playing cs s hz hp).1, ?_⟩
  intro hidx hc
  refine ⟨?_, applyAttempts_zen_wrong n s c hz hp hidx hc⟩
  rw [attemptMatch_wrong s c hp hidx hc, owm_zen s hz]
  exact ⟨rfl, rfl, hp⟩

/-- C5 witness: the theorem applied at the concrete zen-mode Playing
state; 10 consecutive wrong (blue) matches leave the state Playing with
mistakes 10, matching Scenario C of the spec. -/
theorem zen_mode_safety_witness :
    (sZen.zenMode = true ∧ sZen.gstate = GState.playing) ∧
    ((applyAttempts sZen (List.replicate 10 Color.blue)).gstate = GState.playing ∧
     (sZen.currentIndex < sZen.trackQueue.length →
       Color.blue ≠ sZen.trackQueue.getD sZen.currentIndex Color.red →
       ((attemptMatch sZen Color.blue).1.mistakes = sZen.mistakes + 1 ∧
        (attemptMatch sZen Color.blue).1.comboCount = 0 ∧
        (attemptMatch sZen Color.blue).1.gstate = GState.playing) ∧
       (applyAttempts sZen (List.replicate 10 Color.blue)).gstate = GState.playing ∧
       (applyAttempts sZen (List.replicate 10 Color.blue)).mistakes =
         sZen.mistakes + 10)) ∧
    (applyAttempts sZen (List.replicate 10 Color.blue)).mistakes = 10 :=
  ⟨⟨by decide, by decide⟩,
   zen_mode_safety sZen (List.replicate 10 Color.blue) 10 Color.blue
     (by decide) (by decide),
   by decide⟩

/-- C6 (mistake floor): in every reachable state `mistakes ≥ 0`; a
match attempt decreases it only via the combo-forgiveness rule (by
exactly 1, only from a positive value, on a Correct outcome), and a
level transition resets it to 0 in campaign (or leaves it unchanged on
the Victory ending) and decrements it by 1 floored at 0 in endless. -/
theorem mistake_floor (s : GameState) (c : Color) (pick : Nat → Nat)
    (h : Reachable s) :
    0 ≤ s.mistakes ∧
    0 ≤ (attemptMatch s c).1.mistakes ∧
    ((attemptMatch s c).1.mistakes < s.mistakes →
      (attemptMatch s c).1.mistakes = s.mistakes - 1 ∧ 0 < s.mistakes ∧
      (attemptMatch s c).2 = MatchOutcome.correct) ∧
    (s.gstate = GState.playing → s.trackQueue.length ≤ s.currentIndex →
      (s.mode = Mode.campaign →
        (handleLevelCompletion s pick).mistakes = 0 ∨
        (handleLevelCompletion s pick).mistakes = s.mistakes) ∧
      (s.mode = Mode.endless →
        (handleLevelCompletion s pick).mistakes = max 0 (s.mistakes - 1))) := by
  obtain ⟨pickr, htrace⟩ := h
  have hinv := reachable_inv s ⟨pickr, htrace⟩
  have hinv' := reachable_inv (attemptMatch s c).1
    ⟨pickr, htrace.tail (Step.attempt s c)⟩
  refine ⟨hinv.2.2.2.2, hinv'.2.2.2.2, ?_, ?_⟩
  · intro hlt
    by_cases hp : s.gstate = GState.playing
    · by_cases hidx : s.currentIndex < s.trackQueue.length
      · by_cases hc : c = s.trackQueue.getD s.currentIndex Color.red
        · rw [attemptMatch_correct s c hp hidx hc] at hlt ⊢
          rw [ocm_mistakes] at hlt ⊢
          split at hlt
          · rename_i hcond
            rw [if_pos hcond]
            exact ⟨rfl, hcond.2, rfl⟩
          · omega
        · rw [attemptMatch_wrong s c hp hidx hc] at hlt
          rw [owm_mistakes] at hlt
          omega
      · rw [attemptMatch_noop s c hp hidx] at hlt
        simp at hlt
    · rw [attemptMatch_ignored s c hp] at hlt
      simp at hlt
  · intro _ _
    constructor
    · intro hm
      by_cases hl : s.levelIndex < LEVEL_CONFIGS.length - 1
      · left
        rw [hlc_campaign_adv s pick hm hl]
        simp
      · right
        rw [hlc_campaign_victory s pick hm hl]
    · intro hm
      rw [hlc_endless s pick hm]
      simp

/-- C6 witness: the theorem applied at the reachable post-start state. -/
theorem mistake_floor_witness :
    0 ≤ sPlay.mistakes ∧
    0 ≤ (attemptMatch sPlay Color.red).1.mistakes ∧
    ((attemptMatch sPlay Color.red).1.mistakes < sPlay.mistakes →
      (attemptMatch sPlay Color.red).1.mistakes = sPlay.mistakes - 1 ∧
      0 < sPlay.mistakes ∧
      (attemptMatch sPlay Color.red).2 = MatchOutcome.correct) ∧
    (sPlay.gstate = GState.playing →
      sPlay.trackQueue.length ≤ sPlay.currentIndex →
      (sPlay.mode = Mode.campaign →
        (handleLevelCompletion sPlay pick0).mistakes = 0 ∨
        (handleLevelCompletion sPlay pick0).mistakes = sPlay.mistakes) ∧
      (sPlay.mode = Mode.endless →
        (handleLevelCompletion sPlay pick0).mistakes = max 0 (sPlay.mistakes - 1))) :=
  mistake_floor sPlay Color.red pick0
    ⟨pick0, Relation.ReflTransGen.tail Relation.ReflTransGen.refl
      (Step.start sMenu pick0 (by decide))⟩

lemma attempt_highscore (s : GameState) (c : Color) :
    ((attemptMatch s c).1.highScore = s.highScore ∨
      ((attemptMatch s c).1.highScore = max s.highScore s.score ∧
       (attemptMatch s c).1.gameOverReason = some Reason.mistakes)) ∧
    ((attemptMatch s c).1.endlessHighScore = s.endlessHighScore ∨
      ((attemptMatch s c).1.endlessHighScore = max s.endlessHighScore s.score ∧
       (attemptMatch s c).1.gameOverReason = some Reason.mistakes)) := by
  by_cases hp : s.gstate = GState.playing
  · by_cases hidx : s.currentIndex < s.trackQueue.length
    · by_cases hc : c = s.trackQueue.getD s.currentIndex Color.red
      · rw [attemptMatch_correct s c hp hidx hc]
        exact ⟨Or.inl (by simp), Or.inl (by simp)⟩
      · rw [attemptMatch_wrong s c hp hidx hc]
        by_cases hz : s.zenMode = true
        · rw [owm_zen s hz]
          exact ⟨Or.inl rfl, Or.inl rfl⟩
        · have hz' : s.zenMode = false := by
            cases h : s.zenMode
            · rfl
            · exact absurd h hz
          by_cases hge : (s.maxMistakes : Int) ≤ s.mistakes + 1
          · cases hm : s.mode with
            | campaign =>
              rw [owm_over_campaign s hz' hge hm]
              exact ⟨Or.inr ⟨rfl, rfl⟩, Or.inl rfl⟩
            | endless =>
              rw [owm_over_endless s hz' hge hm]
              exact ⟨Or.inl rfl, Or.inr ⟨rfl, rfl⟩⟩
          · rw [owm_stay s hz' (by omega)]
            exact ⟨Or.inl rfl, Or.inl rfl⟩
    · rw [attemptMatch_noop s c hp hidx]
      exact ⟨Or.inl rfl, Or.inl rfl⟩
  · rw [attemptMatch_ignored s c hp]
    exact ⟨Or.inl rfl, Or.inl rfl⟩

lemma step_highscore (s t : GameState) (h : Step s t) :
    (t.highScore = s.highScore ∨
      (t.highScore = max s.highScore s.score ∧
       (t.gameOverReason = some Reason.mistakes ∨
        t.gameOverReason = some Reason.victory))) ∧
    (t.endlessHighScore = s.endlessHighScore ∨
      (t.endlessHighScore = max s.endlessHighScore s.score ∧
       t.gameOverReason = some Reason.mistakes)) := by
  cases h with
  | attempt c =>
    obtain ⟨h1, h2⟩ := attempt_highscore s c
    constructor
    · rcases h1 with h1 | ⟨ha, hb⟩
      · exact Or.inl h1
      · exact Or.inr ⟨ha, Or.inl hb⟩
    · exact h2
  | complete pick hp hidx =>
    cases hm : s.mode with
    | campaign =>
      by_cases hl : s.levelIndex < LEVEL_CONFIGS.length - 1
      · rw [hlc_campaign_adv s pick hm hl]
        exact ⟨Or.inl (by simp), Or.inl (by simp)⟩
      · rw [hlc_campaign_victory s pick hm hl]
        exact ⟨Or.inr ⟨rfl, Or.inr rfl⟩, Or.inl rfl⟩
    | endless =>
      rw [hlc_endless s pick hm]
      exact ⟨Or.inl (by simp), Or.inl (by simp)⟩
  | start pick hp => exact ⟨Or.inl (by simp [startClick]), Or.inl (by simp [startClick])⟩
  | playAgain pick hp => exact ⟨Or.inl (by simp [startClick]), Or.inl (by simp [startClick])⟩
  | quitStep hp => exact ⟨Or.inl rfl, Or.inl rfl⟩
  | modeCycle pick => exact ⟨Or.inl (by simp [cycleMode]), Or.inl (by simp [cycleMode])⟩
  | zen => exact ⟨Or.inl rfl, Or.inl rfl⟩
  | difficulty => exact ⟨Or.inl rfl, Or.inl rfl⟩

lemma step_highscore_mono (s t : GameState) (h : Step s t) :
    s.highScore ≤ t.highScore ∧ s.endlessHighScore ≤ t.endlessHighScore := by
  obtain ⟨h1, h2⟩ := step_highscore s t h
  constructor
  · rcases h1 with h1 | ⟨h1, _⟩ <;> rw [h1] <;> simp
  · rcases h2 with h2 | ⟨h2, _⟩ <;> rw [h2] <;> simp

lemma steps_highscore_mono (s t : GameState)
    (h : Relation.ReflTransGen Step s t) :
    s.highScore ≤ t.highScore ∧ s.endlessHighScore ≤ t.endlessHighScore := by
  induction h with
  | refl => exact ⟨le_refl _, le_refl _⟩
  | tail _ hst ih =>
    obtain ⟨a, b⟩ := step_highscore_mono _ _ hst
    exact ⟨le_trans ih.1 a, le_trans ih.2 b⟩

/-- C7 (high-score monotonicity): across any sequence of operations —
match attempts, level completions, resets, play-again, quit, mode
switches, zen and difficulty toggles — `high_score` (campaign) and
`endless_high_score` (endless) never decrease; and a single operation
changes each one only by replacing it with the max of itself and the
current score (doing so only on a mistakes/victory game-over ending). -/
theorem highscore_monotone (s t u : GameState)
    (h : Relation.ReflTransGen Step s t) (hstep : Step t u) :
    s.highScore ≤ t.highScore ∧ s.endlessHighScore ≤ t.endlessHighScore ∧
    (u.highScore = t.highScore ∨ u.highScore = max t.highScore t.score) ∧
    (u.endlessHighScore = t.endlessHighScore ∨
      u.endlessHighScore = max t.endlessHighScore t.score) := by
  have hmono := steps_highscore_mono s t h
  obtain ⟨h1, h2⟩ := step_highscore t u hstep
  refine ⟨hmono.1, hmono.2, ?_, ?_⟩
  · rcases h1 with h1 | ⟨h1, _⟩
    · exact Or.inl h1
    · exact Or.inr h1
  · rcases h2 with h2 | ⟨h2, _⟩
    · exact Or.inl h2
    · exact Or.inr h2

/-- C7 witness: the theorem applied along the trace
init → start → (wrong match ending the run is the next step). -/
theorem highscore_monotone_witness :
    sMenu.highScore ≤ sPlay.highScore ∧
    sMenu.endlessHighScore ≤ sPlay.endlessHighScore ∧
    ((attemptMatch sPlay Color.blue).1.highScore = sPlay.highScore ∨
      (attemptMatch sPlay Color.blue).1.highScore = max sPlay.highScore sPlay.score) ∧
    ((attemptMatch sPlay Color.blue).1.endlessHighScore = sPlay.endlessHighScore ∨
      (attemptMatch sPlay Color.blue).1.endlessHighScore =
        max sPlay.endlessHighScore sPlay.score) :=
  highscore_monotone sMenu sPlay (attemptMatch sPlay Color.blue).1
    (Relation.ReflTransGen.tail Relation.ReflTransGen.refl
      (Step.start sMenu pick0 (by decide)))
    (Step.attempt sPlay Color.blue)

/-- C8 (NoTrainsRemaining is a no-op): a match attempt while Playing
with the queue already exhausted returns NoTrainsRemaining and leaves
the entire session state (score, mistakes, comboCount, currentIndex,
levelIndex, endlessStage, state, high scores, and all other fields)
unchanged. -/
theorem no_trains_remaining_noop (s : GameState) (c : Color)
    (hp : s.gstate = GState.playing)
    (hidx : s.trackQueue.length ≤ s.currentIndex) :
    (attemptMatch s c).1 = s ∧
    (attemptMatch s c).2 = MatchOutcome.noTrainsRemaining := by
  rw [attemptMatch_noop s c hp (by omega)]
  exact ⟨rfl, rfl⟩

/-- C8 witness: the theorem applied at a concrete exhausted Playing
state. -/
theorem no_trains_remaining_noop_witness :
    (sDone.gstate = GState.playing ∧
     sDone.trackQueue.length ≤ sDone.currentIndex) ∧
    ((attemptMatch sDone Color.red).1 = sDone ∧
     (attemptMatch sDone Color.red).2 = MatchOutcome.noTrainsRemaining) :=
  ⟨⟨by decide, by decide⟩,
   no_trains_remaining_noop sDone Color.red (by decide) (by decide)⟩

/-- C9 (bounded queue size): in every reachable state the track queue
holds at most 20 trains; in campaign mode at most 16 (the largest
`max_trains` in LEVEL_CONFIGS) and in endless mode at most 18 (the
`min(base + stage // 2, 18)` cap). -/
theorem bounded_queue_size (s : GameState) (h : Reachable s) :
    s.trackQueue.length ≤ 20 ∧
    (s.mode = Mode.campaign → s.trackQueue.length ≤ 16) ∧
    (s.mode = Mode.endless → s.trackQueue.length ≤ 18) := by
  obtain ⟨-, hlen, hmax, hlvl, -⟩ := reachable_inv s h
  rw [hlen, hmax]
  cases hm : s.mode with
  | campaign =>
    have h16 := calc_campaign_le_16 s.levelIndex s.endlessStage hlvl
    refine ⟨by omega, fun _ => h16, fun habs => ?_⟩
    exact absurd habs (by decide)
  | endless =>
    have h18 := calc_endless_le_18 s.levelIndex s.endlessStage
    refine ⟨by omega, fun habs => ?_, fun _ => h18⟩
    exact absurd habs (by decide)

/-- C9 witness: the theorem applied at the reachable post-start state. -/
theorem bounded_queue_size_witness :
    sPlay.trackQueue.length ≤ 20 ∧
    (sPlay.mode = Mode.campaign → sPlay.trackQueue.length ≤ 16) ∧
    (sPlay.mode = Mode.endless → sPlay.trackQueue.length ≤ 18) :=
  bounded_queue_size sPlay
    ⟨pick0, Relation.ReflTransGen.tail Relation.ReflTransGen.refl
      (Step.start sMenu pick0 (by decide))⟩

/-- C10 (quitting never records the score): the quit path only stores
`game_over_reason = 'quit'` and leaves both high scores (and the score)
untouched, whatever their values; and whenever any operation does
change a high score, that operation is a MistakesExceeded or Victory
ending. -/
theorem quit_never_records (s t : GameState) (hstep : Step s t) :
    (quitClick s).highScore = s.highScore ∧
    (quitClick s).endlessHighScore = s.endlessHighScore ∧
    (quitClick s).score = s.score ∧
    (quitClick s).gameOverReason = some Reason.quit ∧
    ((t.highScore ≠ s.highScore ∨ t.endlessHighScore ≠ s.endlessHighScore) →
      t.gameOverReason = some Reason.mistakes ∨
      t.gameOverReason = some Reason.victory) := by
  refine ⟨rfl, rfl, rfl, rfl, ?_⟩
  intro hne
  obtain ⟨h1, h2⟩ := step_highscore s t hstep
  rcases hne with hne | hne
  · rcases h1 with h1 | ⟨_, hr⟩
    · exact absurd h1 hne
    · exact hr
  · rcases h2 with h2 | ⟨_, hr⟩
    · exact absurd h2 hne
    · exact Or.inl hr

/-- C10 witness: the theorem applied at the initial menu state with the
quit operation itself as the step. -/
theorem quit_never_records_witness :
    (quitClick sMenu).highScore = sMenu.highScore ∧
    (quitClick sMenu).endlessHighScore = sMenu.endlessHighScore ∧
    (quitClick sMenu).score = sMenu.score ∧
    (quitClick sMenu).gameOverReason = some Reason.quit ∧
    (((quitClick sMenu).highScore ≠ sMenu.highScore ∨
      (quitClick sMenu).endlessHighScore ≠ sMenu.endlessHighScore) →
      (quitClick sMenu).gameOverReason = some Reason.mistakes ∨
      (quitClick sMenu).gameOverReason = some Reason.victory) :=
  quit_never_records sMenu (quitClick sMenu)
    (Step.quitStep sMenu (Or.inl (by decide)))
